import Mathlib

/-!
# Model-release tracker: verification of the incremental sync & alerting pipeline

Shallow embedding of the core of the `model-release-tracker` repository
(`src/mrt`): the normalized event model and its fingerprint
(`src/mrt/models.py`), the keyword rule matcher (`src/mrt/rules/matcher.py`),
the SQLite-backed state store modelled as a pure value
(`src/mrt/state/sqlite_store.py`), the orchestrator
(`src/mrt/runner.py`), and the HuggingFace source adapter poll loop
(`src/mrt/sources/huggingface.py`).

Conventions of the embedding:
* Python `datetime` values are modelled by `Int` (only their total order and
  equality matter to the core); the wall clock is threaded as an explicit
  `now` parameter where the source calls `datetime.now`.
* Machine integers do not occur in the Python source; SHA-256's 32-bit words
  are `Nat` reduced with `% 2^32`.
* Exceptions raised by collaborators (source `poll`, notifier `send`) are
  modelled with `Except String`, the `String` being the already-formatted
  `f"{type(e).__name__}: {e}"` message the runner would build.
* Side effects on the SQLite store and notifier invocations are recorded as
  an explicit operation trace (`Op`); the store value after a step is the
  fold of `applyOp` over the trace, which keeps the temporal claims
  (persist-before-notify, mark-seen-after-delivery) directly statable.
-/

namespace MRT

/-- Python `datetime` modelled by its order type. -/
abbrev Time := Int

/-! ## SHA-256 (`hashlib.sha256(payload).hexdigest()`, `models.py` line 70)

A direct implementation of FIPS 180-4 over `Nat` bytes/words, with 32-bit
wrap-around written as `% 2^32`. -/

namespace Sha256

/-- Reduce to a 32-bit word. -/
def w32 (n : Nat) : Nat := n % 2 ^ 32

/-- Right rotation of a 32-bit word by `n` bits. -/
def rotr (n x : Nat) : Nat := w32 ((x >>> n) ||| (x <<< (32 - n)))

/-- Bitwise complement of a 32-bit word. -/
def compl32 (x : Nat) : Nat := x ^^^ (2 ^ 32 - 1)

def ch (x y z : Nat) : Nat := (x &&& y) ^^^ (compl32 x &&& z)

def maj (x y z : Nat) : Nat := (x &&& y) ^^^ (x &&& z) ^^^ (y &&& z)

def bigSigma0 (x : Nat) : Nat := rotr 2 x ^^^ rotr 13 x ^^^ rotr 22 x

def bigSigma1 (x : Nat) : Nat := rotr 6 x ^^^ rotr 11 x ^^^ rotr 25 x

def smallSigma0 (x : Nat) : Nat := rotr 7 x ^^^ rotr 18 x ^^^ (x >>> 3)

def smallSigma1 (x : Nat) : Nat := rotr 17 x ^^^ rotr 19 x ^^^ (x >>> 10)

/-- The 64 round constants. -/
def K : List Nat :=
  [0x428A2F98, 0x71374491, 0xB5C0FBCF, 0xE9B5DBA5, 0x3956C25B, 0x59F111F1, 0x923F82A4, 0xAB1C5ED5,
   0xD807AA98, 0x12835B01, 0x243185BE, 0x550C7DC3, 0x72BE5D74, 0x80DEB1FE, 0x9BDC06A7, 0xC19BF174,
   0xE49B69C1, 0xEFBE4786, 0x0FC19DC6, 0x240CA1CC, 0x2DE92C6F, 0x4A7484AA, 0x5CB0A9DC, 0x76F988DA,
   0x983E5152, 0xA831C66D, 0xB00327C8, 0xBF597FC7, 0xC6E00BF3, 0xD5A79147, 0x06CA6351, 0x14292967,
   0x27B70A85, 0x2E1B2138, 0x4D2C6DFC, 0x53380D13, 0x650A7354, 0x766A0ABB, 0x81C2C92E, 0x92722C85,
   0xA2BFE8A1, 0xA81A664B, 0xC24B8B70, 0xC76C51A3, 0xD192E819, 0xD6990624, 0xF40E3585, 0x106AA070,
   0x19A4C116, 0x1E376C08, 0x2748774C, 0x34B0BCB5, 0x391C0CB3, 0x4ED8AA4A, 0x5B9CCA4F, 0x682E6FF3,
   0x748F82EE, 0x78A5636F, 0x84C87814, 0x8CC70208, 0x90BEFFFA, 0xA4506CEB, 0xBEF9A3F7, 0xC67178F2]

/-- Working state / hash value: eight 32-bit words. -/
structure Hash8 where
  a : Nat
  b : Nat
  c : Nat
  d : Nat
  e : Nat
  f : Nat
  g : Nat
  h : Nat

/-- Initial hash value H⁰. -/
def initH : Hash8 :=
  ⟨0x6A09E667, 0xBB67AE85, 0x3C6EF372, 0xA54FF53A, 0x510E527F, 0x9B05688C, 0x1F83D9AB, 0x5BE0CD19⟩

/-- Group a byte list into big-endian 32-bit words. -/
def toWords : List Nat → List Nat
  | b0 :: b1 :: b2 :: b3 :: rest => (((b0 * 256 + b1) * 256 + b2) * 256 + b3) :: toWords rest
  | _ => []

/-- Extend the 16 block words to 64 schedule words; `acc` holds the words
produced so far in reverse, `fuel` counts the 48 remaining ones. -/
def extendSchedule : Nat → List Nat → List Nat
  | 0, acc => acc.reverse
  | fuel + 1, acc =>
    let wi := w32 (smallSigma1 (acc.getD 1 0) + acc.getD 6 0 +
                   smallSigma0 (acc.getD 14 0) + acc.getD 15 0)
    extendSchedule fuel (wi :: acc)

/-- One compression round with round constant `k` and schedule word `w`. -/
def round (st : Hash8) (kw : Nat × Nat) : Hash8 :=
  let t1 := w32 (st.h + bigSigma1 st.e + ch st.e st.f st.g + kw.1 + kw.2)
  let t2 := w32 (bigSigma0 st.a + maj st.a st.b st.c)
  ⟨w32 (t1 + t2), st.a, st.b, st.c, w32 (st.d + t1), st.e, st.f, st.g⟩

/-- Compress one 64-byte block into the running hash. -/
def compress (hv : Hash8) (block : List Nat) : Hash8 :=
  let ws := extendSchedule 48 (toWords block).reverse
  let st := (K.zip ws).foldl round hv
  ⟨w32 (hv.a + st.a), w32 (hv.b + st.b), w32 (hv.c + st.c), w32 (hv.d + st.d),
   w32 (hv.e + st.e), w32 (hv.f + st.f), w32 (hv.g + st.g), w32 (hv.h + st.h)⟩

/-- The message bit length as 8 big-endian bytes. -/
def lengthBytes (n : Nat) : List Nat :=
  [(n >>> 56) % 256, (n >>> 48) % 256, (n >>> 40) % 256, (n >>> 32) % 256,
   (n >>> 24) % 256, (n >>> 16) % 256, (n >>> 8) % 256, n % 256]

/-- FIPS 180-4 padding: `0x80`, zeros to 56 mod 64, then the 64-bit length. -/
def pad (msg : List Nat) : List Nat :=
  let zeros := (64 - (msg.length + 9) % 64) % 64
  msg ++ 0x80 :: List.replicate zeros 0 ++ lengthBytes (8 * msg.length)

/-- Split into 64-byte blocks. -/
def chunks (l : List Nat) : List (List Nat) :=
  if h : l = [] then [] else l.take 64 :: chunks (l.drop 64)
termination_by l.length
decreasing_by
  simp only [List.length_drop]
  exact Nat.sub_lt (List.length_pos.mpr h) (by norm_num)

/-- Big-endian bytes of a 32-bit word. -/
def bytesOfWord (w : Nat) : List Nat :=
  [(w >>> 24) % 256, (w >>> 16) % 256, (w >>> 8) % 256, w % 256]

/-- The 32 digest bytes of a final hash value. -/
def digestBytes (hv : Hash8) : List Nat :=
  bytesOfWord hv.a ++ bytesOfWord hv.b ++ bytesOfWord hv.c ++ bytesOfWord hv.d ++
  bytesOfWord hv.e ++ bytesOfWord hv.f ++ bytesOfWord hv.g ++ bytesOfWord hv.h

/-- SHA-256 digest of a byte string, as 32 bytes. -/
def sha256Bytes (msg : List Nat) : List Nat :=
  digestBytes ((chunks (pad msg)).foldl compress initH)

/-- Lowercase hex digit. -/
def hexChar (n : Nat) : Char :=
  if n < 10 then Char.ofNat (48 + n) else Char.ofNat (87 + n)

/-- Two lowercase hex characters of a byte. -/
def byteHex (b : Nat) : List Char :=
  [hexChar (b / 16), hexChar (b % 16)]

/-- `hashlib.sha256(msg).hexdigest()`. -/
def hexdigest (msg : List Nat) : String :=
  String.mk ((sha256Bytes msg).flatMap byteHex)

end Sha256

/-! ## UTF-8 encoding (`payload.encode("utf-8")`) -/

/-- UTF-8 bytes of one scalar value. -/
def utf8Char (c : Char) : List Nat :=
  let n := c.toNat
  if n < 0x80 then [n]
  else if n < 0x800 then [0xC0 + n / 64, 0x80 + n % 64]
  else if n < 0x10000 then [0xE0 + n / 4096, 0x80 + n / 64 % 64, 0x80 + n % 64]
  else [0xF0 + n / 262144, 0x80 + n / 4096 % 64, 0x80 + n / 64 % 64, 0x80 + n % 64]

/-- UTF-8 bytes of a string. -/
def utf8 (s : String) : List Nat := s.data.flatMap utf8Char

/-! ## Normalized event model (`src/mrt/models.py`)

`json.dumps(..., ensure_ascii=False, sort_keys=True, separators=(",", ":"))`
escapes exactly `"`, `\`, and the C0 control characters (the latter via the
`\b`/`\t`/`\n`/`\f`/`\r` shorthands, or `\u00XX` with lowercase hex); every
other character is emitted verbatim. -/

/-- How `json.dumps(..., ensure_ascii=False)` escapes one character. -/
def escapeChar (c : Char) : List Char :=
  if c = '"' then ['\\', '"']
  else if c = '\\' then ['\\', '\\']
  else if c = Char.ofNat 8 then ['\\', 'b']
  else if c = Char.ofNat 9 then ['\\', 't']
  else if c = Char.ofNat 10 then ['\\', 'n']
  else if c = Char.ofNat 12 then ['\\', 'f']
  else if c = Char.ofNat 13 then ['\\', 'r']
  else if c.toNat < 0x20 then
    ['\\', 'u', '0', '0', Sha256.hexChar (c.toNat / 16), Sha256.hexChar (c.toNat % 16)]
  else [c]

/-- A JSON string literal: quote, escaped body, quote. -/
def encodeJsonString (s : String) : List Char :=
  '"' :: (s.data.flatMap escapeChar ++ ['"'])

/-- `TrackerEvent` (`models.py` lines 32-88). `raw` is an opaque diagnostic
payload (a JSON mapping in the source), modelled by an optional string. -/
structure TrackerEvent where
  source : String
  resource_type : String
  resource_id : String
  event_type : String
  event_id : String
  title : String
  summary : String
  url : String
  occurred_at : Option Time
  observed_at : Time
  raw : Option String := none
deriving DecidableEq

/-- The stable identity tuple (`models.py` lines 62-68, spec §3). -/
def idTuple (e : TrackerEvent) : String × String × String × String × String :=
  (e.source, e.resource_type, e.resource_id, e.event_type, e.event_id)

/-- The serialized stable payload: `json.dumps` of the five identity fields
with `sort_keys=True` (key order `event_id < event_type < resource_id <
resource_type < source`) and separators `(",", ":")` (`models.py` line 69). -/
def stablePayloadChars (source resource_type resource_id event_type event_id : String) :
    List Char :=
  ("\x7b\"event_id\":").data ++ encodeJsonString event_id ++
  (",\"event_type\":").data ++ encodeJsonString event_type ++
  (",\"resource_id\":").data ++ encodeJsonString resource_id ++
  (",\"resource_type\":").data ++ encodeJsonString resource_type ++
  (",\"source\":").data ++ encodeJsonString source ++ [Char.ofNat 0x7d]

/-- The serialized stable payload of an event. -/
def stablePayload (e : TrackerEvent) : String :=
  String.mk (stablePayloadChars e.source e.resource_type e.resource_id e.event_type e.event_id)

/-- `TrackerEvent.fingerprint` (`models.py` lines 54-70): SHA-256 hexdigest of
the UTF-8 bytes of the serialized identity tuple. -/
def TrackerEvent.fingerprint (e : TrackerEvent) : String :=
  Sha256.hexdigest (utf8 (stablePayload e))

/-! ### Decoding the serialized payload

A deterministic decoder for exactly the strings `stablePayloadChars`
produces; it is a left inverse of the serialization, which makes the
serialization injective. It only needs to be correct on the image of the
encoder (everything else may freely return `none`). -/

/-- Inverse of `Sha256.hexChar` on `0..15`. -/
def hexVal (c : Char) : Nat :=
  if 97 ≤ c.toNat then c.toNat - 87 else c.toNat - 48

/-- Decode an escaped JSON string body up to and including the closing
quote; returns the decoded characters and the remaining input. -/
def parseBody : List Char → Option (List Char × List Char)
  | [] => none
  | c :: rest =>
    if c = '"' then some ([], rest)
    else if c = '\\' then
      match rest with
      | [] => none
      | d :: rest2 =>
        if d = '"' then (parseBody rest2).map fun p => ('"' :: p.1, p.2)
        else if d = '\\' then (parseBody rest2).map fun p => ('\\' :: p.1, p.2)
        else if d = 'b' then (parseBody rest2).map fun p => (Char.ofNat 8 :: p.1, p.2)
        else if d = 't' then (parseBody rest2).map fun p => (Char.ofNat 9 :: p.1, p.2)
        else if d = 'n' then (parseBody rest2).map fun p => (Char.ofNat 10 :: p.1, p.2)
        else if d = 'f' then (parseBody rest2).map fun p => (Char.ofNat 12 :: p.1, p.2)
        else if d = 'r' then (parseBody rest2).map fun p => (Char.ofNat 13 :: p.1, p.2)
        else if d = 'u' then
          match rest2 with
          | z1 :: z2 :: h1 :: h2 :: rest3 =>
            if z1 = '0' ∧ z2 = '0' then
              (parseBody rest3).map fun p =>
                (Char.ofNat (hexVal h1 * 16 + hexVal h2) :: p.1, p.2)
            else none
          | _ => none
        else none
    else (parseBody rest).map fun p => (c :: p.1, p.2)

/-- Consume an exact literal prefix. -/
def expectLit : List Char → List Char → Option (List Char)
  | [], input => some input
  | _ :: _, [] => none
  | c :: lit, d :: input => if d = c then expectLit lit input else none

/-- Decode a quoted JSON string literal. -/
def parseJsonStr (input : List Char) : Option (List Char × List Char) :=
  match input with
  | [] => none
  | c :: rest => if c = '"' then parseBody rest else none

/-- Decode a whole serialized identity payload back into
`(event_id, event_type, resource_id, resource_type, source)`. -/
def parseIdPayload (input : List Char) :
    Option (List Char × List Char × List Char × List Char × List Char) :=
  (expectLit ("\x7b\"event_id\":").data input).bind fun r1 =>
  (parseJsonStr r1).bind fun p1 =>
  (expectLit (",\"event_type\":").data p1.2).bind fun r2 =>
  (parseJsonStr r2).bind fun p2 =>
  (expectLit (",\"resource_id\":").data p2.2).bind fun r3 =>
  (parseJsonStr r3).bind fun p3 =>
  (expectLit (",\"resource_type\":").data p3.2).bind fun r4 =>
  (parseJsonStr r4).bind fun p4 =>
  (expectLit (",\"source\":").data p4.2).bind fun r5 =>
  (parseJsonStr r5).bind fun p5 =>
  if p5.2 = [Char.ofNat 0x7d] then some (p1.1, p2.1, p3.1, p4.1, p5.1) else none

/-- `RuleMatch` (`models.py` lines 91-94). -/
structure RuleMatch where
  rule_id : String
  reason : String
deriving DecidableEq

/-! ## Rule matcher (`src/mrt/rules/matcher.py`) -/

/-- Python `str.lower()`. The source lowercases full Unicode; `Char.toLower`
covers the ASCII range, which is faithful for the characters the repository
configures. -/
def pyLower (s : String) : String := String.mk (s.data.map Char.toLower)

/-- Python `str.strip()`: drop leading and trailing whitespace. -/
def pyStrip (s : String) : String :=
  String.mk (((s.data.dropWhile Char.isWhitespace).reverse.dropWhile Char.isWhitespace).reverse)

/-- Contiguous-sublist test: `needle` occurs starting at some position. -/
def listInfix (needle : List Char) : List Char → Bool
  | [] => needle.isEmpty
  | c :: rest => needle.isPrefixOf (c :: rest) || listInfix needle rest

/-- Python `needle in haystack` on strings: contiguous-substring test (true
for the empty needle). -/
def pySubstr (needle haystack : String) : Bool :=
  listInfix needle.data haystack.data

/-- The truthiness test `if self.source_allowlist and event.source not in
self.source_allowlist` (`matcher.py` line 20): `None` and the empty tuple are
both falsy, so filtering only happens for a nonempty allowlist. -/
def allowlistBlocks (allowlist : Option (List String)) (src : String) : Bool :=
  match allowlist with
  | none => false
  | some l => !l.isEmpty && !l.contains src

/-- `RuleMatcher` (`matcher.py` lines 8-17). -/
structure RuleMatcher where
  keywords : List String
  source_allowlist : Option (List String) := none

/-- How one configured keyword is normalized: `(kw or "").strip().lower()`
(`matcher.py` line 26). -/
def normalizeKeyword (kw : String) : String := pyLower (pyStrip kw)

/-- `RuleMatcher.match` (`matcher.py` lines 19-31): haystack is
`f"{title}\n{summary}".lower()`; each configured keyword is normalized, empty
normalized keywords are skipped, and a substring hit appends one `RuleMatch`
(per configured keyword, in configuration order). -/
def RuleMatcher.match (m : RuleMatcher) (event : TrackerEvent) : List RuleMatch :=
  if allowlistBlocks m.source_allowlist event.source then []
  else
    let haystack := pyLower (event.title ++ "\n" ++ event.summary)
    m.keywords.filterMap fun kw =>
      let k := normalizeKeyword kw
      if k.isEmpty then none
      else if pySubstr k haystack then
        some ⟨"keyword:" ++ k, "matched keyword \x27" ++ k ++ "\x27"⟩
      else none

/-! ## Alert and its rendering (`models.py` lines 97-108,
`src/mrt/notify/formatter.py`) -/

/-- `Alert` (`models.py` lines 97-108). -/
structure Alert where
  fingerprint : String
  event : TrackerEvent
  matched_rules : List RuleMatch
  channels : List String
  content : String
  created_at : Time
deriving DecidableEq

/-- `datetime.isoformat()` stands in as the rendering of the modelled clock
value. -/
def timeStr (t : Time) : String := toString t

/-- `format_alert_text` (`formatter.py` lines 6-29). -/
def formatAlertText (alert : Alert) : String :=
  let event := alert.event
  let rules0 := String.intercalate ", " (alert.matched_rules.map (·.rule_id))
  let rules := if rules0 = "" then "-" else rules0
  let occurred := match event.occurred_at with
    | some t => timeStr t
    | none => "-"
  let observed := timeStr event.observed_at
  let lines :=
    ["Model Release Tracker Alert",
     "source: " ++ event.source,
     "resource: " ++ event.resource_type ++ " " ++ event.resource_id,
     "type: " ++ event.event_type,
     "title: " ++ event.title,
     "url: " ++ event.url,
     "occurred_at: " ++ occurred,
     "observed_at: " ++ observed,
     "matched_rules: " ++ rules]
  let lines := if event.summary ≠ "" then lines ++ ["", event.summary] else lines
  String.intercalate "\n" lines

/-! ## State store (`src/mrt/state/sqlite_store.py`)

The four SQLite tables modelled as a pure value. `updated_at` /
`first_seen_at` / `created_at` columns hold the modelled clock. The
`ensure_schema` call is the identity on the pure model. -/

/-- One `notify_failures` row (`sqlite_store.py` lines 64-74). -/
structure NotifyFailureRow where
  fingerprint : String
  channel : String
  error : String
  created_at : Time
deriving DecidableEq

/-- Insert-or-update in an association list keyed by the first component,
modelling `ON CONFLICT ... DO UPDATE` / `INSERT OR REPLACE` on a
primary-key column. -/
def upsertAssoc {α : Type} (key : String) (v : α) : List (String × α) → List (String × α)
  | [] => [(key, v)]
  | (k, w) :: rest => if k = key then (k, v) :: rest else (k, w) :: upsertAssoc key v rest

/-- The durable state: `cursors`, `seen_events`, `alerts`, `notify_failures`
(`sqlite_store.py` lines 36-74). A cursor row's value column is nullable. -/
structure StateStore where
  cursors : List (String × Option String) := []
  seen : List (String × Time) := []
  alerts : List (String × Alert) := []
  notify_failures : List NotifyFailureRow := []
deriving DecidableEq

/-- `get_cursor` (`sqlite_store.py` lines 76-81): absent row and NULL column
both read back as `None`. -/
def StateStore.get_cursor (st : StateStore) (source_key : String) : Option String :=
  match st.cursors.lookup source_key with
  | none => none
  | some v => v

/-- `set_cursor` (`sqlite_store.py` lines 83-94): upsert by `source_key`. -/
def StateStore.set_cursor (st : StateStore) (source_key : String) (cursor : Option String) :
    StateStore :=
  { st with cursors := upsertAssoc source_key cursor st.cursors }

/-- `has_seen` (`sqlite_store.py` lines 96-102). -/
def StateStore.has_seen (st : StateStore) (fingerprint : String) : Bool :=
  (st.seen.lookup fingerprint).isSome

/-- `mark_seen` (`sqlite_store.py` lines 104-112): `INSERT OR IGNORE`. -/
def StateStore.mark_seen (st : StateStore) (fingerprint : String) (now : Time) : StateStore :=
  if st.has_seen fingerprint then st
  else { st with seen := st.seen ++ [(fingerprint, now)] }

/-- `save_alert` (`sqlite_store.py` lines 114-122): `INSERT OR REPLACE` keyed
by fingerprint. -/
def StateStore.save_alert (st : StateStore) (alert : Alert) : StateStore :=
  { st with alerts := upsertAssoc alert.fingerprint alert st.alerts }

/-- `record_notify_failure` (`sqlite_store.py` lines 124-132): append-only. -/
def StateStore.record_notify_failure (st : StateStore) (fingerprint channel error : String)
    (now : Time) : StateStore :=
  { st with notify_failures := st.notify_failures ++ [⟨fingerprint, channel, error, now⟩] }

/-- Read an alert row back (observation of the `alerts` table, for stating
durability properties). -/
def StateStore.get_alert (st : StateStore) (fingerprint : String) : Option Alert :=
  st.alerts.lookup fingerprint

/-! ## Orchestrator (`src/mrt/runner.py`)

Side effects are recorded as an explicit trace of operations; the store value
after a step is the left fold of `applyOp` over the trace. A
`notifyAttempt` entry marks a call of `notifier.send` (it does not touch the
store) so that delivery ordering is part of the trace. -/

/-- One observable effect of event processing. -/
inductive Op where
  | save_alert (alert : Alert)
  | notifyAttempt (channel : String) (fingerprint : String) (ok : Bool)
  | record_notify_failure (fingerprint channel error : String)
  | mark_seen (fingerprint : String)
  | set_cursor (source_key : String) (cursor : String)
deriving DecidableEq

/-- Effect of one operation on the store. -/
def applyOp (now : Time) (st : StateStore) : Op → StateStore
  | .save_alert a => st.save_alert a
  | .notifyAttempt _ _ _ => st
  | .record_notify_failure fp ch err => st.record_notify_failure fp ch err now
  | .mark_seen fp => st.mark_seen fp now
  | .set_cursor k c => st.set_cursor k (some c)

/-- Effect of a trace on the store. -/
def applyTrace (now : Time) (st : StateStore) (tr : List Op) : StateStore :=
  tr.foldl (applyOp now) st

/-- `PollResult` (`src/mrt/sources/base.py` lines 9-12). -/
structure PollResult where
  events : List TrackerEvent
  new_cursor : Option String

/-- The `Source` protocol (`sources/base.py` lines 15-22); a raising `poll`
is an `error` carrying the formatted `f"{type(e).__name__}: {e}"` message. -/
structure Source where
  key : String
  poll : Option String → Except String PollResult

/-- The notifier contract (`runner.py` usage sites; spec §4.6): a raising
`send` is an `error` carrying the formatted exception message. -/
structure Notifier where
  channel : String
  send : Alert → Except String Unit

/-- `_ProcessEventReport` (`runner.py` lines 63-71). -/
structure ProcessEventReport where
  processed : Bool
  skipped_seen : Bool
  matched : Bool
  alert_created : Bool
  notify_attempts : Nat
  notify_successes : Nat
  notify_failures : Nat
deriving DecidableEq

/-- `Runner` (`runner.py` lines 74-85). The store is threaded explicitly
through the operations instead of sitting in a mutable field; `now` models
the wall clock for the cycle. -/
structure Runner where
  sources : List Source
  matcher : RuleMatcher
  notifiers : List Notifier
  record_unmatched_as_seen : Bool := true
  now : Time := 0

/-- The notifier fan-out loop (`runner.py` lines 278-304): skip a notifier
whose channel is not in the alert's channel tuple, count an attempt, and on
failure append a `notify_failures` row carrying the originating error.
Returns the emitted ops and the attempt/success/failure counters. -/
def fanoutStep (alert : Alert) (acc : List Op × Nat × Nat × Nat) (n : Notifier) :
    List Op × Nat × Nat × Nat :=
  if !(alert.channels.contains n.channel) then acc
  else
    match n.send alert with
    | .ok _ =>
        (acc.1 ++ [.notifyAttempt n.channel alert.fingerprint true],
         acc.2.1 + 1, acc.2.2.1 + 1, acc.2.2.2)
    | .error e =>
        (acc.1 ++ [.notifyAttempt n.channel alert.fingerprint false,
                   .record_notify_failure alert.fingerprint n.channel e],
         acc.2.1 + 1, acc.2.2.1, acc.2.2.2 + 1)

def notifyFanout (notifiers : List Notifier) (alert : Alert) : List Op × Nat × Nat × Nat :=
  notifiers.foldl (fanoutStep alert) ([], 0, 0, 0)

/-- The two-step alert construction of `runner.py` lines 258-274: the alert
is built with empty content, then rebuilt with the rendered text of that
alert. -/
def buildAlert (now : Time) (notifiers : List Notifier) (fp : String) (event : TrackerEvent)
    (ms : List RuleMatch) : Alert :=
  let channels := notifiers.map (·.channel)
  let alert0 : Alert :=
    { fingerprint := fp, event := event, matched_rules := ms,
      channels := channels, content := "", created_at := now }
  { alert0 with content := formatAlertText alert0 }

/-- `Runner._process_event` (`runner.py` lines 231-315), as the report it
returns plus the trace of effects it performs against the given store. -/
def Runner.process_event (r : Runner) (st : StateStore) (event : TrackerEvent) :
    ProcessEventReport × List Op :=
  let fp := event.fingerprint
  if st.has_seen fp then
    (⟨true, true, false, false, 0, 0, 0⟩, [])
  else
    let ms := r.matcher.match event
    if ms.isEmpty then
      (⟨true, false, false, false, 0, 0, 0⟩,
       if r.record_unmatched_as_seen then [.mark_seen fp] else [])
    else
      let alert := buildAlert r.now r.notifiers fp event ms
      let fan := notifyFanout r.notifiers alert
      (⟨true, false, true, true, fan.2.1, fan.2.2.1, fan.2.2.2⟩,
       Op.save_alert alert :: (fan.1 ++ [Op.mark_seen fp]))

/-- The per-source counters the `run_once` event loop accumulates
(`runner.py` lines 122-129, 167-180). -/
structure EvCounters where
  events_processed : Nat := 0
  events_skipped_seen : Nat := 0
  events_matched : Nat := 0
  alerts_created : Nat := 0
  notify_attempts : Nat := 0
  notify_successes : Nat := 0
  notify_failures : Nat := 0
deriving DecidableEq

/-- The sort key of `runner.py` line 166:
`(e.occurred_at or e.observed_at, e.fingerprint())` (a datetime is always
truthy, so `or` falls through exactly on `None`). -/
def sortKey (e : TrackerEvent) : Time × String :=
  (e.occurred_at.getD e.observed_at, e.fingerprint)

/-- Ascending comparison on the sort key (lexicographic tuple order). -/
def keyLe (a b : TrackerEvent) : Bool :=
  (sortKey a).1 < (sortKey b).1 ||
  ((sortKey a).1 = (sortKey b).1 && (sortKey a).2 ≤ (sortKey b).2)

/-- `events.sort(key=...)` (`runner.py` line 166): a stable ascending sort by
the key. -/
def sortEvents (events : List TrackerEvent) : List TrackerEvent :=
  events.mergeSort keyLe

/-- One iteration of the event loop (`runner.py` lines 167-180): run
`_process_event`, apply its effects, and fold its report into the counters
(`if not r.processed: continue` skips only the counter updates). -/
def Runner.stepEvent (r : Runner) (acc : StateStore × EvCounters × List Op)
    (event : TrackerEvent) : StateStore × EvCounters × List Op :=
  let st := acc.1
  let c := acc.2.1
  let tr := acc.2.2
  let pe := r.process_event st event
  let rep := pe.1
  let ops := pe.2
  let st1 := applyTrace r.now st ops
  if !rep.processed then (st1, c, tr ++ ops)
  else
    (st1,
     { events_processed := c.events_processed + 1,
       events_skipped_seen := c.events_skipped_seen + (if rep.skipped_seen then 1 else 0),
       events_matched := c.events_matched + (if rep.matched then 1 else 0),
       alerts_created := c.alerts_created + (if rep.alert_created then 1 else 0),
       notify_attempts := c.notify_attempts + rep.notify_attempts,
       notify_successes := c.notify_successes + rep.notify_successes,
       notify_failures := c.notify_failures + rep.notify_failures },
     tr ++ ops)

/-- The whole event loop over an (already sorted) event list. -/
def Runner.processEvents (r : Runner) (st : StateStore) (events : List TrackerEvent) :
    StateStore × EvCounters × List Op :=
  events.foldl r.stepEvent (st, {}, [])

/-- `SourceRunReport` (`runner.py` lines 28-43). `source_type` (the Python
class name) and `duration_ms` (wall-clock timing) are diagnostics outside the
embedding and are omitted. -/
structure SourceRunReport where
  source_key : String
  cursor_before : Option String
  cursor_after : Option String
  events_fetched : Nat
  events_processed : Nat
  events_skipped_seen : Nat
  events_matched : Nat
  alerts_created : Nat
  notify_attempts : Nat
  notify_successes : Nat
  notify_failures : Nat
  error : Option String
deriving DecidableEq

/-- One source's turn in `run_once` (`runner.py` lines 115-211): read the
cursor, poll, on error report and continue with the store untouched; on
success sort, process every event, then persist a non-null `new_cursor`. -/
def Runner.runSource (r : Runner) (st : StateStore) (src : Source) :
    StateStore × SourceRunReport × List Op :=
  let cursor := st.get_cursor src.key
  match src.poll cursor with
  | .error e =>
    (st,
     { source_key := src.key, cursor_before := cursor, cursor_after := cursor,
       events_fetched := 0, events_processed := 0, events_skipped_seen := 0,
       events_matched := 0, alerts_created := 0, notify_attempts := 0,
       notify_successes := 0, notify_failures := 0, error := some e },
     [])
  | .ok result =>
    let cursor_after := match result.new_cursor with
      | some c => some c
      | none => cursor
    let pe := r.processEvents st (sortEvents result.events)
    let st1 := pe.1
    let c := pe.2.1
    let tr := pe.2.2
    let st2 := match result.new_cursor with
      | some nc => st1.set_cursor src.key (some nc)
      | none => st1
    let tr2 := match result.new_cursor with
      | some nc => tr ++ [Op.set_cursor src.key nc]
      | none => tr
    (st2,
     { source_key := src.key, cursor_before := cursor, cursor_after := cursor_after,
       events_fetched := result.events.length, events_processed := c.events_processed,
       events_skipped_seen := c.events_skipped_seen, events_matched := c.events_matched,
       alerts_created := c.alerts_created, notify_attempts := c.notify_attempts,
       notify_successes := c.notify_successes, notify_failures := c.notify_failures,
       error := none },
     tr2)

/-- The source loop of `run_once` (`runner.py` lines 115-211), producing
per-source reports in iteration order. -/
def Runner.runSourcesGo (r : Runner) (st : StateStore) :
    List Source → StateStore × List SourceRunReport
  | [] => (st, [])
  | src :: rest =>
    let one := r.runSource st src
    let next := r.runSourcesGo one.1 rest
    (next.1, one.2.1 :: next.2)

/-- `RunOnceReport` (`runner.py` lines 46-61) minus the wall-clock fields
(`started_at`/`finished_at`/`duration_ms`). -/
structure RunOnceReport where
  sources : List SourceRunReport
  events_fetched : Nat
  events_processed : Nat
  events_skipped_seen : Nat
  events_matched : Nat
  alerts_created : Nat
  notify_attempts : Nat
  notify_successes : Nat
  notify_failures : Nat
  source_errors : Nat
deriving DecidableEq

/-- The totals accumulation of `run_once` (`runner.py` lines 103-113,
138, 204-211): error reports contribute only to `source_errors`, success
reports contribute their counters, which equals summing over the report
list. -/
def aggregate (reports : List SourceRunReport) : RunOnceReport :=
  { sources := reports,
    events_fetched := (reports.map (·.events_fetched)).sum,
    events_processed := (reports.map (·.events_processed)).sum,
    events_skipped_seen := (reports.map (·.events_skipped_seen)).sum,
    events_matched := (reports.map (·.events_matched)).sum,
    alerts_created := (reports.map (·.alerts_created)).sum,
    notify_attempts := (reports.map (·.notify_attempts)).sum,
    notify_successes := (reports.map (·.notify_successes)).sum,
    notify_failures := (reports.map (·.notify_failures)).sum,
    source_errors := (reports.filter (·.error.isSome)).length }

/-- `Runner.run_once` (`runner.py` lines 87-229). `ensure_schema` is the
identity on the pure store model. -/
def Runner.run_once (r : Runner) (st : StateStore) : StateStore × RunOnceReport :=
  let go := r.runSourcesGo st r.sources
  (go.1, aggregate go.2)

/-! ## HuggingFace source adapter (`src/mrt/sources/huggingface.py`)

One upstream response item, as the `poll` loop reads it. `lastModified` is
`none` when the `lastModified`/`last_modified` field is missing or not a
string (the item is skipped); the `str(... or "")` chains for
`modelId`/`sha`/`pipeline_tag or library_name` are modelled by plain strings
with `""` for "missing". The pagination chain followed through the `Link:
next` headers is the page list; the loop stops at its end. The JSON cursor
(`_decode_cursor`/`_encode_cursor`, lines 13-26) carries exactly an optional
watermark timestamp, so the loop body (lines 50-119) is embedded at the
decoded level: `hfPollCore` takes the decoded watermark and returns the
events plus the final `newest_last_modified` watermark that line 119
re-encodes. -/

structure HFItem where
  lastModified : Option Time
  modelId : String
  sha : String
  pipelineOrLibrary : String
  raw : Option String := none

/-- The per-item body of the poll loop (`huggingface.py` lines 74-111),
threading `(newest_last_modified, events)`. -/
def hfProcessItem (org : String) (now : Time) (last_modified_after : Option Time)
    (acc : Option Time × List TrackerEvent) (it : HFItem) :
    Option Time × List TrackerEvent :=
  let newest := acc.1
  let events := acc.2
  match it.lastModified with
  | none => acc
  | some lm =>
    if (match last_modified_after with
        | some w => decide (lm ≤ w)
        | none => false) then acc
    else
      let newest := match newest with
        | none => some lm
        | some n => if n < lm then some lm else some n
      if it.modelId = "" then (newest, events)
      else
        let event_id := if it.sha = "" then it.modelId else it.sha
        (newest,
         events ++ [{ source := "huggingface", resource_type := "org_model",
                      resource_id := org, event_type := "model_updated",
                      event_id := event_id, title := it.modelId,
                      summary := it.pipelineOrLibrary,
                      url := "https://huggingface.co/" ++ it.modelId,
                      occurred_at := some lm, observed_at := now, raw := it.raw }])

/-- The poll loop over the page chain (`huggingface.py` lines 64-117),
returning the collected events and the final watermark
(`newest_last_modified`, initialized to the decoded cursor). -/
def hfPollCore (org : String) (now : Time) (last_modified_after : Option Time)
    (pages : List (List HFItem)) : List TrackerEvent × Option Time :=
  let acc :=
    pages.foldl (fun acc page => page.foldl (hfProcessItem org now last_modified_after) acc)
      (last_modified_after, [])
  (acc.2, acc.1)

/-- The watermark candidates: `lastModified` values of polled items that
survive the string check and the `<= last_modified_after` filter — these are
exactly the values `newest_last_modified` is maxed over, whether or not the
item also yields an event. -/
def hfCandidateTimes (last_modified_after : Option Time) (pages : List (List HFItem)) :
    List Time :=
  pages.flatten.filterMap fun it =>
    match it.lastModified with
    | none => none
    | some lm =>
      match last_modified_after with
      | some w => if lm ≤ w then none else some lm
      | none => some lm

/-- The candidate times over a flat item list (what `hfCandidateTimes`
computes per page chain, with a decoded watermark `w`). -/
def hfCandList (w : Time) (items : List HFItem) : List Time :=
  items.filterMap fun it =>
    match it.lastModified with
    | none => none
    | some lm => if lm ≤ w then none else some lm

/-! ## Sample inputs

Concrete collaborators used to instantiate the verified properties (the same
shapes the repository's own tests use: one matching event, an
always-succeeding and an always-raising notifier, a raising source). -/

/-- A concrete matching event (cf. `tests/test_runner_e2e.py`). -/
def exEvent : TrackerEvent :=
  { source := "github", resource_type := "repo_issue", resource_id := "a/b",
    event_type := "issue_updated", event_id := "1", title := "DeepSeek release",
    summary := "", url := "https://example.com/1",
    occurred_at := some 100, observed_at := 100 }

/-- A second event differing from `exEvent` only in presentation fields. -/
def exEventRetitled : TrackerEvent :=
  { exEvent with title := "DeepSeek release (edited)", summary := "now with a summary",
                 url := "https://example.com/1b" }

/-- An unrelated event with a different `event_id`. -/
def exEventOther : TrackerEvent :=
  { exEvent with event_id := "2", title := "unrelated fix" }

/-- An always-succeeding notifier. -/
def exNotifierOk : Notifier := { channel := "fake", send := fun _ => .ok () }

/-- An always-raising notifier (cf. `tests/test_notify_failures.py`). -/
def exNotifierBad : Notifier :=
  { channel := "boom", send := fun _ => .error "RuntimeError: send failed" }

/-- The keyword matcher the tests configure. -/
def exMatcher : RuleMatcher := { keywords := ["deepseek"] }

/-- A source that returns `exEvent` and cursor `"c1"`. -/
def exSource : Source :=
  { key := "s1", poll := fun _ => .ok { events := [exEvent], new_cursor := some "c1" } }

/-- A source whose poll always raises (cf. `_FailingSource`). -/
def exSourceBad : Source :=
  { key := "boom", poll := fun _ => .error "RuntimeError: poll failed" }

/-- A runner with one succeeding notifier. -/
def exRunner : Runner :=
  { sources := [exSource], matcher := exMatcher, notifiers := [exNotifierOk] }

/-- A runner with one always-raising notifier. -/
def exRunnerBad : Runner :=
  { sources := [exSource], matcher := exMatcher, notifiers := [exNotifierBad] }

/-- The family of events differing only in the length of `event_id` (used to
instantiate the fingerprint over an unbounded identity space). -/
def repEvent (j : Nat) : TrackerEvent :=
  { exEvent with event_id := String.mk (List.replicate j (Char.ofNat 97)) }

/-! ## Observations of the fan-out loop

Specification-level views of the trace one notifier contributes, used to
characterize `notifyFanout` closed-form. -/

/-- Does the fan-out attempt delivery through `n`? (the membership check of
`runner.py` line 283). -/
def attempted (alert : Alert) (n : Notifier) : Bool :=
  alert.channels.contains n.channel

/-- Does `n.send` raise on this alert? -/
def sendFails (alert : Alert) (n : Notifier) : Bool :=
  match n.send alert with
  | .ok _ => false
  | .error _ => true

/-- The ops a single notifier contributes to the fan-out trace. -/
def notifierOps (alert : Alert) (n : Notifier) : List Op :=
  if !(alert.channels.contains n.channel) then []
  else
    match n.send alert with
    | .ok _ => [.notifyAttempt n.channel alert.fingerprint true]
    | .error e =>
        [.notifyAttempt n.channel alert.fingerprint false,
         .record_notify_failure alert.fingerprint n.channel e]

/-- The notify-failure rows the fan-out appends, in notifier order, each
carrying the originating error. -/
def failureRowsOf (now : Time) (alert : Alert) (ns : List Notifier) : List NotifyFailureRow :=
  ns.filterMap fun n =>
    if alert.channels.contains n.channel then
      match n.send alert with
      | .ok _ => none
      | .error e => some ⟨alert.fingerprint, n.channel, e, now⟩
    else none

/-- The alert `_process_event` builds for a matched event. -/
def mkAlert (r : Runner) (e : TrackerEvent) : Alert :=
  buildAlert r.now r.notifiers e.fingerprint e (r.matcher.match e)

/-- Is this op a delivery attempt? -/
def Op.isNotifyAttempt : Op → Bool
  | .notifyAttempt _ _ _ => true
  | _ => false

/-! ## Basic store lemmas -/

theorem lookup_upsertAssoc_self {α : Type} (key : String) (v : α) (l : List (String × α)) :
    (upsertAssoc key v l).lookup key = some v := by
  induction l with
  | nil => simp [upsertAssoc, List.lookup]
  | cons p rest ih =>
    obtain ⟨k, w⟩ := p
    by_cases hk : k = key
    · subst hk; simp [upsertAssoc, List.lookup]
    · simp only [upsertAssoc, if_neg hk, List.lookup]
      have : (key == k) = false := by
        simpa [beq_iff_eq] using fun h => hk h.symm
      simp [this, ih]

theorem lookup_upsertAssoc_ne {α : Type} (key key2 : String) (v : α) (l : List (String × α))
    (h : key2 ≠ key) : (upsertAssoc key v l).lookup key2 = l.lookup key2 := by
  have hb : (key2 == key) = false := beq_eq_false_iff_ne.mpr h
  induction l with
  | nil =>
    simp [upsertAssoc, List.lookup, hb]
  | cons p rest ih =>
    obtain ⟨k, w⟩ := p
    by_cases hk : k = key
    · subst hk
      simp [upsertAssoc, List.lookup, hb]
    · simp [upsertAssoc, if_neg hk, List.lookup, ih]

/-! ## Fan-out characterization -/

theorem foldl_fanoutStep (alert : Alert) (ns : List Notifier) :
    ∀ acc : List Op × Nat × Nat × Nat,
      ns.foldl (fanoutStep alert) acc =
        (acc.1 ++ ns.flatMap (notifierOps alert),
         acc.2.1 + (ns.filter (attempted alert)).length,
         acc.2.2.1 + (ns.filter fun n => attempted alert n && !sendFails alert n).length,
         acc.2.2.2 + (ns.filter fun n => attempted alert n && sendFails alert n).length) := by
  induction ns with
  | nil => intro acc; simp
  | cons n rest ih =>
    intro acc
    rw [List.foldl_cons, ih]
    by_cases ha : alert.channels.contains n.channel
    · cases hsend : n.send alert with
      | ok v =>
        simp only [fanoutStep, ha, hsend, Bool.not_true, Bool.false_eq_true, if_false,
          notifierOps, attempted, sendFails, List.flatMap_cons, List.filter_cons]
        simp [List.append_assoc]
        omega
      | error er =>
        simp only [fanoutStep, ha, hsend, Bool.not_true, Bool.false_eq_true, if_false,
          notifierOps, attempted, sendFails, List.flatMap_cons, List.filter_cons]
        simp [List.append_assoc]
        omega
    · simp only [fanoutStep, ha, notifierOps, attempted, sendFails,
        List.flatMap_cons, List.filter_cons]
      simp [ha]

theorem notifyFanout_eq (ns : List Notifier) (alert : Alert) :
    notifyFanout ns alert =
      (ns.flatMap (notifierOps alert),
       (ns.filter (attempted alert)).length,
       (ns.filter fun n => attempted alert n && !sendFails alert n).length,
       (ns.filter fun n => attempted alert n && sendFails alert n).length) := by
  unfold notifyFanout
  rw [foldl_fanoutStep]
  simp

theorem lookup_append_of_none {α : Type} (a : String) (l1 l2 : List (String × α))
    (h : l1.lookup a = none) : (l1 ++ l2).lookup a = l2.lookup a := by
  induction l1 with
  | nil => simp
  | cons p rest ih =>
    obtain ⟨k, w⟩ := p
    by_cases hk : a == k
    · simp [List.lookup, hk] at h
    · simp only [List.cons_append, List.lookup, hk]
      exact ih (by simpa [List.lookup, hk] using h)

/-- The master equation for the matched branch of `_process_event`: report
and trace in closed form. -/
theorem process_event_matched (r : Runner) (st : StateStore) (e : TrackerEvent)
    (hseen : st.has_seen e.fingerprint = false)
    (hm : (r.matcher.match e).isEmpty = false) :
    r.process_event st e =
      (⟨true, false, true, true,
        (r.notifiers.filter (attempted (mkAlert r e))).length,
        (r.notifiers.filter fun n => attempted (mkAlert r e) n && !sendFails (mkAlert r e) n).length,
        (r.notifiers.filter fun n => attempted (mkAlert r e) n && sendFails (mkAlert r e) n).length⟩,
       Op.save_alert (mkAlert r e) ::
         (r.notifiers.flatMap (notifierOps (mkAlert r e)) ++ [Op.mark_seen e.fingerprint])) := by
  unfold Runner.process_event
  simp only [hseen, Bool.false_eq_true, if_false, hm]
  rw [notifyFanout_eq]
  rfl

/-- Applying the delivery segment of the trace only appends the failure
rows. -/
theorem applyTrace_notifierOps (now : Time) (alert : Alert) (ns : List Notifier) :
    ∀ st : StateStore, applyTrace now st (ns.flatMap (notifierOps alert)) =
      { st with notify_failures := st.notify_failures ++ failureRowsOf now alert ns } := by
  induction ns with
  | nil => intro st; simp [applyTrace, failureRowsOf]
  | cons n rest ih =>
    intro st
    have hsplit : applyTrace now st (notifierOps alert n ++ rest.flatMap (notifierOps alert)) =
        applyTrace now (applyTrace now st (notifierOps alert n))
          (rest.flatMap (notifierOps alert)) := by
      simp [applyTrace, List.foldl_append]
    rw [List.flatMap_cons, hsplit, ih]
    by_cases ha : alert.channels.contains n.channel
    · have hmem : n.channel ∈ alert.channels := by simpa using ha
      cases hsend : n.send alert with
      | ok v =>
        simp [notifierOps, ha, hmem, hsend, failureRowsOf, List.filterMap_cons, applyTrace,
          applyOp]
      | error er =>
        simp [notifierOps, ha, hmem, hsend, failureRowsOf, List.filterMap_cons, applyTrace,
          applyOp, StateStore.record_notify_failure]
    · have hmem : n.channel ∉ alert.channels := by simpa using ha
      simp [notifierOps, ha, hmem, failureRowsOf, List.filterMap_cons, applyTrace]

/-- The master equation for the store after processing a matched, unseen
event: the alert row is upserted, the failure rows are appended, and the
fingerprint is appended to the seen-set; cursors are untouched. -/
theorem applyTrace_matched (r : Runner) (st : StateStore) (e : TrackerEvent)
    (hseen : st.has_seen e.fingerprint = false)
    (hm : (r.matcher.match e).isEmpty = false) :
    applyTrace r.now st (r.process_event st e).2 =
      { cursors := st.cursors,
        seen := st.seen ++ [(e.fingerprint, r.now)],
        alerts := upsertAssoc e.fingerprint (mkAlert r e) st.alerts,
        notify_failures := st.notify_failures ++ failureRowsOf r.now (mkAlert r e) r.notifiers } := by
  rw [process_event_matched r st e hseen hm]
  have h1 : applyTrace r.now st
      (Op.save_alert (mkAlert r e) ::
        (r.notifiers.flatMap (notifierOps (mkAlert r e)) ++ [Op.mark_seen e.fingerprint])) =
      applyTrace r.now
        (applyTrace r.now (st.save_alert (mkAlert r e))
          (r.notifiers.flatMap (notifierOps (mkAlert r e))))
        [Op.mark_seen e.fingerprint] := by
    simp [applyTrace, List.foldl_append, applyOp]
  rw [h1, applyTrace_notifierOps]
  have hkey : (mkAlert r e).fingerprint = e.fingerprint := rfl
  simp only [applyTrace, List.foldl_cons, List.foldl_nil, applyOp, StateStore.save_alert,
    StateStore.mark_seen, StateStore.has_seen, hkey]
  have hseen2 : (st.seen.lookup e.fingerprint).isSome = false := by
    simpa [StateStore.has_seen] using hseen
  simp [hseen2]

/-! ## C1 -/

/-- **C1.** If an event's fingerprint is already in the seen-set,
`_process_event` short-circuits: it returns the processed-but-skipped report
with zero alert/notify counters, emits no effect at all (no rule matching
output, no alert, no notify attempt, no store write), and the state store is
left exactly as it was — so a second run over that fingerprint contributes
zero additional alerts and zero additional notify attempts. -/
theorem C1_seen_fingerprint_short_circuits (r : Runner) (st : StateStore) (e : TrackerEvent)
    (h : st.has_seen e.fingerprint = true) :
    r.process_event st e = (⟨true, true, false, false, 0, 0, 0⟩, []) ∧
    applyTrace r.now st (r.process_event st e).2 = st := by
  have h1 : r.process_event st e = (⟨true, true, false, false, 0, 0, 0⟩, []) := by
    unfold Runner.process_event
    simp [h]
  exact ⟨h1, by rw [h1]; rfl⟩

/-- **C1, witness.** The short-circuit at a concrete seen event. -/
theorem C1_witness :
    ({ seen := [(exEvent.fingerprint, 0)] } : StateStore).has_seen exEvent.fingerprint = true ∧
    exRunner.process_event { seen := [(exEvent.fingerprint, 0)] } exEvent =
      (⟨true, true, false, false, 0, 0, 0⟩, []) := by
  have h : ({ seen := [(exEvent.fingerprint, 0)] } : StateStore).has_seen
      exEvent.fingerprint = true := by
    simp [StateStore.has_seen, List.lookup]
  exact ⟨h, (C1_seen_fingerprint_short_circuits exRunner _ exEvent h).1⟩

/-! ## C3 -/

/-- **C3.** For a matched, not-yet-seen event, the very first effect of
`_process_event` is persisting the alert — the trace is `save_alert`
followed by the delivery segment and the final `mark_seen`, so every notify
attempt is strictly after the persist — the persisted alert carries the
event's fingerprint and all its rule matches, and the alert row is present
in the resulting store whatever the delivery outcomes were. -/
theorem C3_alert_persisted_before_delivery (r : Runner) (st : StateStore) (e : TrackerEvent)
    (hseen : st.has_seen e.fingerprint = false)
    (hm : (r.matcher.match e).isEmpty = false) :
    (r.process_event st e).2 =
      Op.save_alert (mkAlert r e) ::
        (r.notifiers.flatMap (notifierOps (mkAlert r e)) ++ [Op.mark_seen e.fingerprint]) ∧
    (mkAlert r e).fingerprint = e.fingerprint ∧
    (mkAlert r e).matched_rules = r.matcher.match e ∧
    (applyTrace r.now st (r.process_event st e).2).get_alert e.fingerprint =
      some (mkAlert r e) := by
  refine ⟨?_, rfl, rfl, ?_⟩
  · rw [process_event_matched r st e hseen hm]
  · rw [applyTrace_matched r st e hseen hm]
    simp [StateStore.get_alert, lookup_upsertAssoc_self]

/-- **C3, witness.** At a concrete matched event whose only notifier always
raises, the alert row still exists afterwards. -/
theorem C3_witness :
    (({} : StateStore).has_seen exEvent.fingerprint = false) ∧
    ((exRunnerBad.matcher.match exEvent).isEmpty = false) ∧
    (applyTrace exRunnerBad.now {} (exRunnerBad.process_event {} exEvent).2).get_alert
        exEvent.fingerprint = some (mkAlert exRunnerBad exEvent) := by
  refine ⟨rfl, by decide, ?_⟩
  exact (C3_alert_persisted_before_delivery exRunnerBad {} exEvent rfl (by decide)).2.2.2

/-! ## C4 -/

theorem length_failureRowsOf (now : Time) (alert : Alert) (ns : List Notifier) :
    (failureRowsOf now alert ns).length =
      (ns.filter fun n => attempted alert n && sendFails alert n).length := by
  induction ns with
  | nil => rfl
  | cons n rest ih =>
    by_cases ha : alert.channels.contains n.channel
    · have hmem : n.channel ∈ alert.channels := by simpa using ha
      cases hsend : n.send alert with
      | ok v =>
        simpa [failureRowsOf, List.filterMap_cons, List.filter_cons, attempted, sendFails,
          hmem, hsend] using ih
      | error er =>
        simpa [failureRowsOf, List.filterMap_cons, List.filter_cons, attempted, sendFails,
          hmem, hsend] using ih
    · have hmem : n.channel ∉ alert.channels := by simpa using ha
      simpa [failureRowsOf, List.filterMap_cons, List.filter_cons, attempted, hmem] using ih

/-- **C4.** For a matched, not-yet-seen event: every delivery failure is
caught (the trace runs through the whole notifier list and ends in
`mark_seen`), each failure is recorded as exactly one `notify_failures` row
carrying the originating error (in notifier order), the failure counter
equals the number of those rows, the attempt counter counts every notifier
that passed the channel check, and the fingerprint is seen in the resulting
store regardless of the delivery outcomes. -/
theorem C4_failures_recorded_and_marked_seen (r : Runner) (st : StateStore) (e : TrackerEvent)
    (hseen : st.has_seen e.fingerprint = false)
    (hm : (r.matcher.match e).isEmpty = false) :
    (applyTrace r.now st (r.process_event st e).2).notify_failures =
      st.notify_failures ++ failureRowsOf r.now (mkAlert r e) r.notifiers ∧
    (applyTrace r.now st (r.process_event st e).2).has_seen e.fingerprint = true ∧
    (r.process_event st e).1.notify_attempts =
      (r.notifiers.filter (attempted (mkAlert r e))).length ∧
    (r.process_event st e).1.notify_failures =
      (failureRowsOf r.now (mkAlert r e) r.notifiers).length ∧
    (r.process_event st e).2 =
      Op.save_alert (mkAlert r e) ::
        (r.notifiers.flatMap (notifierOps (mkAlert r e)) ++ [Op.mark_seen e.fingerprint]) := by
  refine ⟨?_, ?_, ?_, ?_, ?_⟩
  · rw [applyTrace_matched r st e hseen hm]
  · rw [applyTrace_matched r st e hseen hm]
    have h0 : st.seen.lookup e.fingerprint = none := by
      cases h : st.seen.lookup e.fingerprint with
      | none => rfl
      | some v => exact absurd hseen (by simp [StateStore.has_seen, h])
    simp [StateStore.has_seen, lookup_append_of_none _ _ _ h0, List.lookup]
  · rw [process_event_matched r st e hseen hm]
  · rw [process_event_matched r st e hseen hm]
    simp [length_failureRowsOf]
  · rw [process_event_matched r st e hseen hm]

/-- **C4, witness.** The spec scenario: a single always-raising notifier and
one matching event yield 1 attempt, 1 failure, exactly one
`notify_failures` row carrying the originating error, and the fingerprint
marked seen. -/
theorem C4_witness :
    (({} : StateStore).has_seen exEvent.fingerprint = false) ∧
    ((exRunnerBad.matcher.match exEvent).isEmpty = false) ∧
    (exRunnerBad.process_event {} exEvent).1.notify_attempts = 1 ∧
    (exRunnerBad.process_event {} exEvent).1.notify_failures = 1 ∧
    (applyTrace exRunnerBad.now {} (exRunnerBad.process_event {} exEvent).2).notify_failures =
      [⟨exEvent.fingerprint, "boom", "RuntimeError: send failed", 0⟩] ∧
    (applyTrace exRunnerBad.now {} (exRunnerBad.process_event {} exEvent).2).has_seen
        exEvent.fingerprint = true := by
  have h := C4_failures_recorded_and_marked_seen exRunnerBad {} exEvent rfl (by decide)
  refine ⟨rfl, by decide, ?_, ?_, ?_, h.2.1⟩
  · rw [h.2.2.1]; rfl
  · rw [h.2.2.2.1]; rfl
  · rw [h.1]; rfl

/-! ## C10 -/

theorem attempted_of_channels_map (alert : Alert) (ns : List Notifier)
    (h : alert.channels = ns.map (·.channel)) :
    ∀ n ∈ ns, attempted alert n = true := by
  intro n hn
  simp only [attempted, h]
  simpa using List.mem_map_of_mem (·.channel) hn

theorem filter_split_length {α : Type} (p q : α → Bool) (l : List α) :
    (l.filter fun a => p a && !q a).length + (l.filter fun a => p a && q a).length =
      (l.filter p).length := by
  induction l with
  | nil => rfl
  | cons a rest ih =>
    cases hp : p a <;> cases hq : q a <;>
      simp [List.filter_cons, hp, hq] <;> omega

theorem filter_attempts_eq_map (alert : Alert) (ns : List Notifier)
    (hall : ∀ n ∈ ns, attempted alert n = true) :
    (ns.flatMap (notifierOps alert)).filter Op.isNotifyAttempt =
      ns.map fun n => Op.notifyAttempt n.channel alert.fingerprint (!sendFails alert n) := by
  induction ns with
  | nil => rfl
  | cons n rest ih =>
    have ha : attempted alert n = true := hall n (by simp)
    have hmem : n.channel ∈ alert.channels := by simpa [attempted] using ha
    have ihr := ih fun m hm => hall m (by simp [hm])
    cases hsend : n.send alert with
    | ok v =>
      simp [List.flatMap_cons, notifierOps, hmem, hsend, List.filter_append,
        Op.isNotifyAttempt, ihr, sendFails]
    | error er =>
      simp [List.flatMap_cons, notifierOps, hmem, hsend, List.filter_append,
        Op.isNotifyAttempt, ihr, sendFails]

/-- **C10.** For a matched, not-yet-seen event the alert's channel tuple is
exactly the configured notifiers' channels in order; the channel-membership
check never skips a notifier, so the trace contains exactly one delivery
attempt per configured notifier (in order), the attempt counter equals the
notifier count, and attempts split exactly into successes plus failures. -/
theorem C10_fanout_covers_all_notifiers (r : Runner) (st : StateStore) (e : TrackerEvent)
    (hseen : st.has_seen e.fingerprint = false)
    (hm : (r.matcher.match e).isEmpty = false) :
    (mkAlert r e).channels = r.notifiers.map (·.channel) ∧
    (r.process_event st e).2.filter Op.isNotifyAttempt =
      r.notifiers.map
        (fun n => Op.notifyAttempt n.channel e.fingerprint (!sendFails (mkAlert r e) n)) ∧
    (r.process_event st e).1.notify_attempts = r.notifiers.length ∧
    (r.process_event st e).1.notify_attempts =
      (r.process_event st e).1.notify_successes + (r.process_event st e).1.notify_failures := by
  have hch : (mkAlert r e).channels = r.notifiers.map (·.channel) := rfl
  have hall := attempted_of_channels_map (mkAlert r e) r.notifiers hch
  have hfil : r.notifiers.filter (attempted (mkAlert r e)) = r.notifiers :=
    List.filter_eq_self.mpr hall
  refine ⟨hch, ?_, ?_, ?_⟩
  · rw [process_event_matched r st e hseen hm]
    simp only [List.filter_cons, List.filter_append]
    rw [filter_attempts_eq_map (mkAlert r e) r.notifiers hall]
    simp [Op.isNotifyAttempt]
    exact fun a _ => rfl
  · rw [process_event_matched r st e hseen hm]
    simp [hfil]
  · rw [process_event_matched r st e hseen hm]
    exact (filter_split_length (attempted (mkAlert r e)) (sendFails (mkAlert r e))
      r.notifiers).symm

/-- **C10, witness.** At a concrete matched event with one succeeding
notifier: one attempt, one success, zero failures. -/
theorem C10_witness :
    (({} : StateStore).has_seen exEvent.fingerprint = false) ∧
    ((exRunner.matcher.match exEvent).isEmpty = false) ∧
    (mkAlert exRunner exEvent).channels = ["fake"] ∧
    (exRunner.process_event {} exEvent).1.notify_attempts = 1 ∧
    (exRunner.process_event {} exEvent).1.notify_attempts =
      (exRunner.process_event {} exEvent).1.notify_successes +
        (exRunner.process_event {} exEvent).1.notify_failures := by
  have h := C10_fanout_covers_all_notifiers exRunner {} exEvent rfl (by decide)
  refine ⟨rfl, by decide, ?_, ?_, h.2.2.2⟩
  · rw [h.1]; rfl
  · rw [h.2.2.1]; rfl

/-! ## C5 -/

/-- **C5.** When one source's poll raises, its turn leaves the store
completely untouched (so its cursor is unchanged and every later source
runs exactly as it would have), its report entry carries the error with all
counters zero and the unchanged cursor, and the aggregated cycle report
counts exactly one more source error than the remaining sources produce. -/
theorem C5_source_error_isolated (r : Runner) (st : StateStore) (bad : Source)
    (rest : List Source) (msg : String)
    (hpoll : bad.poll (st.get_cursor bad.key) = .error msg) :
    r.runSourcesGo st (bad :: rest) =
      ((r.runSourcesGo st rest).1,
       { source_key := bad.key, cursor_before := st.get_cursor bad.key,
         cursor_after := st.get_cursor bad.key, events_fetched := 0, events_processed := 0,
         events_skipped_seen := 0, events_matched := 0, alerts_created := 0,
         notify_attempts := 0, notify_successes := 0, notify_failures := 0,
         error := some msg } :: (r.runSourcesGo st rest).2) ∧
    (aggregate ((r.runSourcesGo st (bad :: rest)).2)).source_errors =
      (aggregate ((r.runSourcesGo st rest).2)).source_errors + 1 := by
  have h1 : r.runSource st bad =
      (st,
       { source_key := bad.key, cursor_before := st.get_cursor bad.key,
         cursor_after := st.get_cursor bad.key, events_fetched := 0, events_processed := 0,
         events_skipped_seen := 0, events_matched := 0, alerts_created := 0,
         notify_attempts := 0, notify_successes := 0, notify_failures := 0,
         error := some msg },
       []) := by
    simp only [Runner.runSource, hpoll]
  have hcons : r.runSourcesGo st (bad :: rest) =
      ((r.runSourcesGo (r.runSource st bad).1 rest).1,
       (r.runSource st bad).2.1 :: (r.runSourcesGo (r.runSource st bad).1 rest).2) := rfl
  have hmain := hcons.trans (by rw [h1])
  refine ⟨hmain, ?_⟩
  rw [hmain]
  simp [aggregate, List.filter_cons]

/-- **C5, witness.** A raising source followed by a healthy one: the
aggregated report counts exactly one source error on top of what the healthy
tail produces, and the tail starts from the untouched store. -/
theorem C5_witness :
    exSourceBad.poll (({} : StateStore).get_cursor exSourceBad.key) =
      .error "RuntimeError: poll failed" ∧
    (exRunner.runSourcesGo {} (exSourceBad :: [exSource])).1 =
      (exRunner.runSourcesGo {} [exSource]).1 ∧
    (aggregate ((exRunner.runSourcesGo {} (exSourceBad :: [exSource])).2)).source_errors =
      (aggregate ((exRunner.runSourcesGo {} [exSource])).2).source_errors + 1 := by
  have h := C5_source_error_isolated exRunner {} exSourceBad [exSource]
    "RuntimeError: poll failed" rfl
  exact ⟨rfl, by rw [h.1], h.2⟩

/-! ## C6 -/

/-- Event processing never writes the cursor table. -/
theorem cursors_applyTrace_process_event (r : Runner) (st : StateStore) (e : TrackerEvent) :
    (applyTrace r.now st (r.process_event st e).2).cursors = st.cursors := by
  by_cases hs : st.has_seen e.fingerprint
  · unfold Runner.process_event
    simp [hs, applyTrace]
  · have hs2 : st.has_seen e.fingerprint = false := by simpa using hs
    by_cases hm : (r.matcher.match e).isEmpty
    · unfold Runner.process_event
      simp only [hs2, Bool.false_eq_true, if_false, hm, if_true]
      by_cases hr : r.record_unmatched_as_seen
      · simp only [hr, if_true, applyTrace, List.foldl_cons, List.foldl_nil, applyOp,
          StateStore.mark_seen]
        split <;> rfl
      · simp [hr, applyTrace]
    · rw [applyTrace_matched r st e hs2 (by simpa using hm)]

/-- The event loop never writes the cursor table. -/
theorem cursors_foldl_stepEvent (r : Runner) (evs : List TrackerEvent) :
    ∀ acc : StateStore × EvCounters × List Op,
      ((evs.foldl r.stepEvent acc).1).cursors = acc.1.cursors := by
  induction evs with
  | nil => intro acc; rfl
  | cons e rest ih =>
    intro acc
    rw [List.foldl_cons, ih]
    unfold Runner.stepEvent
    dsimp only
    split <;> exact cursors_applyTrace_process_event r acc.1 e

/-- **C6.** For any source whose poll succeeds: a non-null `new_cursor` is
persisted under the source's key (the stored cursor after the source's turn
is exactly that value, which is what the next cycle's `poll` receives), and
a null `new_cursor` leaves the stored cursor for that key untouched; the
per-source report's `cursor_after` shows the same value. -/
theorem C6_cursor_persistence (r : Runner) (st : StateStore) (src : Source)
    (result : PollResult)
    (hpoll : src.poll (st.get_cursor src.key) = .ok result) :
    (∀ c, result.new_cursor = some c →
      (r.runSource st src).1.get_cursor src.key = some c ∧
      (r.runSource st src).2.1.cursor_after = some c) ∧
    (result.new_cursor = none →
      (r.runSource st src).1.get_cursor src.key = st.get_cursor src.key ∧
      (r.runSource st src).2.1.cursor_after = st.get_cursor src.key) := by
  have hcur : (List.foldl r.stepEvent (st, ({} : EvCounters), ([] : List Op))
      (sortEvents result.events)).1.cursors = st.cursors :=
    cursors_foldl_stepEvent r (sortEvents result.events) (st, {}, [])
  constructor
  · intro c hc
    simp only [Runner.runSource, hpoll, hc]
    refine ⟨?_, by trivial⟩
    simp [StateStore.get_cursor, StateStore.set_cursor, lookup_upsertAssoc_self]
  · intro hc
    simp only [Runner.runSource, hpoll, hc]
    refine ⟨?_, by trivial⟩
    simp only [Runner.processEvents, StateStore.get_cursor, hcur]

/-- **C6, witness.** A source returning cursor `"c1"` stores `"c1"`; a
source returning a null cursor leaves its stored cursor absent. -/
theorem C6_witness :
    exSource.poll (({} : StateStore).get_cursor exSource.key) =
      .ok { events := [exEvent], new_cursor := some "c1" } ∧
    (exRunner.runSource {} exSource).1.get_cursor "s1" = some "c1" ∧
    ((exRunner.runSource
        { cursors := [("s2", some "old")] }
        { key := "s2", poll := fun _ => .ok { events := [], new_cursor := none } }).1.get_cursor
      "s2" =
      ({ cursors := [("s2", some "old")] } : StateStore).get_cursor "s2") := by
  refine ⟨rfl, ?_, ?_⟩
  · exact ((C6_cursor_persistence exRunner {} exSource
      { events := [exEvent], new_cursor := some "c1" } rfl).1 "c1" rfl).1
  · exact ((C6_cursor_persistence exRunner { cursors := [("s2", some "old")] }
      { key := "s2", poll := fun _ => .ok { events := [], new_cursor := none } }
      { events := [], new_cursor := none } rfl).2 rfl).1

/-! ## C7 -/

theorem keyLe_trans : ∀ (a b c : TrackerEvent), keyLe a b → keyLe b c → keyLe a c := by
  intro a b c hab hbc
  simp only [keyLe, Bool.or_eq_true, Bool.and_eq_true, decide_eq_true_eq] at hab hbc ⊢
  rcases hab with h1 | ⟨h1, h2⟩ <;> rcases hbc with h3 | ⟨h3, h4⟩
  · exact Or.inl (lt_trans h1 h3)
  · exact Or.inl (h3 ▸ h1)
  · exact Or.inl (h1 ▸ h3)
  · exact Or.inr ⟨h1.trans h3, le_trans h2 h4⟩

theorem keyLe_total : ∀ (a b : TrackerEvent), keyLe a b || keyLe b a := by
  intro a b
  simp only [keyLe, Bool.or_eq_true, Bool.and_eq_true, decide_eq_true_eq]
  rcases lt_trichotomy (sortKey a).1 (sortKey b).1 with h | h | h
  · exact Or.inl (Or.inl h)
  · rcases le_total (sortKey a).2 (sortKey b).2 with hs | hs
    · exact Or.inl (Or.inr ⟨h, hs⟩)
    · exact Or.inr (Or.inr ⟨h.symm, hs⟩)
  · exact Or.inr (Or.inl h)

/-- **C7.** The per-source run processes exactly `sortEvents` of the polled
events (its trace is the event-loop trace over the sorted list, plus the
final cursor write), and `sortEvents` is a permutation of the poll result
sorted ascending by `(occurred_at ?? observed_at, fingerprint)` — so the
processing and notification order is deterministic for a given poll result,
ties in the timestamp being broken by fingerprint. -/
theorem C7_deterministic_sorted_processing (r : Runner) (st : StateStore) (src : Source)
    (result : PollResult) (hpoll : src.poll (st.get_cursor src.key) = .ok result) :
    (∃ tail, (r.runSource st src).2.2 =
      (r.processEvents st (sortEvents result.events)).2.2 ++ tail) ∧
    (sortEvents result.events).Perm result.events ∧
    List.Pairwise (fun a b => keyLe a b = true) (sortEvents result.events) := by
  refine ⟨?_, List.mergeSort_perm result.events keyLe,
    List.sorted_mergeSort keyLe_trans keyLe_total result.events⟩
  simp only [Runner.runSource, hpoll]
  cases hc : result.new_cursor with
  | some c => exact ⟨[Op.set_cursor src.key c], rfl⟩
  | none => exact ⟨[], by simp [Runner.processEvents]⟩

/-- **C7, witness.** Instantiated at the concrete source. -/
theorem C7_witness :
    exSource.poll (({} : StateStore).get_cursor exSource.key) =
      .ok { events := [exEvent], new_cursor := some "c1" } ∧
    (sortEvents [exEvent]).Perm [exEvent] ∧
    List.Pairwise (fun a b => keyLe a b = true) (sortEvents [exEvent]) := by
  have h := C7_deterministic_sorted_processing exRunner {} exSource
    { events := [exEvent], new_cursor := some "c1" } rfl
  exact ⟨rfl, h.2.1, h.2.2⟩

/-! ## C8 -/

/-- **C8, counterexample.** Three concrete refutations of the claim as
stated: (i) two configured keywords normalizing to the same string produce
two `RuleMatch`es with the same rule id for one event; (ii) a keyword that is
a substring of the plain concatenation `title ++ summary` but spans the
title/summary boundary does not match, because the code matches against
`title ++ "\n" ++ summary`; (iii) a whitespace-only keyword normalizes to
`""`, which is a substring of everything, yet produces no match because the
code skips empty normalized keywords. -/
theorem C8_counterexample :
    ((RuleMatcher.match { keywords := ["DeepSeek", " deepseek "] } exEvent).map
        (fun mr => mr.rule_id) = ["keyword:deepseek", "keyword:deepseek"]) ∧
    (RuleMatcher.match { keywords := ["ab"] }
        { exEvent with title := "a", summary := "b" } = []) ∧
    pySubstr (normalizeKeyword "ab") (pyLower (("a" : String) ++ "b")) = true ∧
    (RuleMatcher.match { keywords := ["  "] } exEvent = []) ∧
    pySubstr (normalizeKeyword "  ") (pyLower (exEvent.title ++ exEvent.summary)) = true := by
  refine ⟨by decide, by decide, by decide, by decide, by decide⟩

/-- **C8 (amended).** For every event passing the source allow-list, the
matcher returns one `RuleMatch` per *configured* keyword (in configuration
order) whose normalized (trimmed, lowercased) form is nonempty and a
substring of the lowercased `title ++ "\n" ++ summary`, with `rule_id` equal
to `"keyword:"` followed by the normalized keyword — so two configured
keywords that normalize to the same string each produce their own
`RuleMatch`. -/
theorem C8_keyword_match_amended (m : RuleMatcher) (e : TrackerEvent)
    (hal : allowlistBlocks m.source_allowlist e.source = false) :
    m.match e =
      ((m.keywords.map normalizeKeyword).filter
        (fun k => !k.isEmpty && pySubstr k (pyLower (e.title ++ "\n" ++ e.summary)))).map
        (fun k => ⟨"keyword:" ++ k, "matched keyword \x27" ++ k ++ "\x27"⟩) := by
  simp only [RuleMatcher.match, hal, Bool.false_eq_true, if_false]
  induction m.keywords with
  | nil => rfl
  | cons kw rest ih =>
    simp only [List.filterMap_cons, List.map_cons, List.filter_cons]
    by_cases h1 : (normalizeKeyword kw).isEmpty
    · simp [h1, ih]
    · by_cases h2 : pySubstr (normalizeKeyword kw) (pyLower (e.title ++ "\n" ++ e.summary))
      · simp [h1, h2, ih]
      · simp [h1, h2, ih]

/-- **C8, witness.** The amended characterization at the concrete matcher
and event. -/
theorem C8_witness :
    allowlistBlocks exMatcher.source_allowlist exEvent.source = false ∧
    exMatcher.match exEvent =
      ((exMatcher.keywords.map normalizeKeyword).filter
        (fun k => !k.isEmpty &&
          pySubstr k (pyLower (exEvent.title ++ "\n" ++ exEvent.summary)))).map
        (fun k => ⟨"keyword:" ++ k, "matched keyword \x27" ++ k ++ "\x27"⟩) :=
  ⟨rfl, C8_keyword_match_amended exMatcher exEvent rfl⟩

/-! ## C9 -/

theorem le_foldl_max (l : List Time) : ∀ n : Time, n ≤ l.foldl max n := by
  induction l with
  | nil => intro n; exact le_refl n
  | cons x rest ih =>
    intro n
    exact le_trans (le_max_left n x) (ih (max n x))

/-- The watermark after folding a flat item list: the max of the incoming
watermark and every parseable `lastModified` strictly beyond `w`. -/
theorem hfFold_watermark (org : String) (now w : Time) (items : List HFItem) :
    ∀ (n : Time) (evs : List TrackerEvent),
      (items.foldl (hfProcessItem org now (some w)) (some n, evs)).1 =
        some ((hfCandList w items).foldl max n) := by
  induction items with
  | nil => intro n evs; rfl
  | cons it rest ih =>
    intro n evs
    rw [List.foldl_cons]
    cases hlm : it.lastModified with
    | none =>
      have hcl : hfCandList w (it :: rest) = hfCandList w rest := by
        simp [hfCandList, List.filterMap_cons, hlm]
      have hstep : hfProcessItem org now (some w) (some n, evs) it = (some n, evs) := by
        simp [hfProcessItem, hlm]
      rw [hcl, hstep]
      exact ih n evs
    | some lm =>
      by_cases hle : lm ≤ w
      · have hcl : hfCandList w (it :: rest) = hfCandList w rest := by
          simp [hfCandList, List.filterMap_cons, hlm, hle]
        have hstep : hfProcessItem org now (some w) (some n, evs) it = (some n, evs) := by
          simp [hfProcessItem, hlm, hle]
        rw [hcl, hstep]
        exact ih n evs
      · have hcl : hfCandList w (it :: rest) = lm :: hfCandList w rest := by
          simp [hfCandList, List.filterMap_cons, hlm, hle]
        have hmax : (if n < lm then some lm else some n) = some (max n lm) := by
          by_cases h : n < lm
          · simp [h, max_eq_right h.le]
          · simp [h, max_eq_left (not_lt.mp h)]
        rw [hcl, List.foldl_cons]
        have hp1 : (hfProcessItem org now (some w) (some n, evs) it).1 = some (max n lm) := by
          by_cases hid : it.modelId = "" <;> simp [hfProcessItem, hlm, hle, hid, hmax]
        have hp : hfProcessItem org now (some w) (some n, evs) it =
            (some (max n lm), (hfProcessItem org now (some w) (some n, evs) it).2) := by
          rw [← hp1]
        rw [hp]
        exact ih (max n lm) _

/-- Every event the item fold appends has `occurred_at` strictly beyond the
decoded watermark. -/
theorem hfFold_events_gt (org : String) (now w : Time) (items : List HFItem) :
    ∀ acc : Option Time × List TrackerEvent,
      (∀ e ∈ acc.2, ∀ t, e.occurred_at = some t → w < t) →
      ∀ e ∈ (items.foldl (hfProcessItem org now (some w)) acc).2, ∀ t,
        e.occurred_at = some t → w < t := by
  induction items with
  | nil => intro acc hacc; exact hacc
  | cons it rest ih =>
    intro acc hacc
    rw [List.foldl_cons]
    refine ih (hfProcessItem org now (some w) acc it) ?_
    intro e he t ht
    cases hlm : it.lastModified with
    | none =>
      have hstep : (hfProcessItem org now (some w) acc it).2 = acc.2 := by
        simp [hfProcessItem, hlm]
      rw [hstep] at he
      exact hacc e he t ht
    | some lm =>
      by_cases hle : lm ≤ w
      · have hstep : (hfProcessItem org now (some w) acc it).2 = acc.2 := by
          simp [hfProcessItem, hlm, hle]
        rw [hstep] at he
        exact hacc e he t ht
      · by_cases hid : it.modelId = ""
        · have hstep : (hfProcessItem org now (some w) acc it).2 = acc.2 := by
            simp [hfProcessItem, hlm, hle, hid]
          rw [hstep] at he
          exact hacc e he t ht
        · have hstep : (hfProcessItem org now (some w) acc it).2 =
              acc.2 ++ [(⟨"huggingface", "org_model", org, "model_updated",
                (if it.sha = "" then it.modelId else it.sha), it.modelId,
                it.pipelineOrLibrary, "https://huggingface.co/" ++ it.modelId,
                some lm, now, it.raw⟩ : TrackerEvent)] := by
            simp [hfProcessItem, hlm, hle, hid]
          rw [hstep] at he
          rcases List.mem_append.mp he with h | h
          · exact hacc e h t ht
          · rw [List.mem_singleton.mp h] at ht
            obtain rfl : lm = t := Option.some.inj ht
            exact lt_of_not_le hle

/-- **C9, counterexample.** An upstream item with a fresh `lastModified` but
an empty `modelId` yields no event, yet still advances
`newest_last_modified`: with decoded watermark 1 and that single item, the
poll returns no events while the new watermark is 5 — not the maximum of
the watermark and the (empty set of) returned events' times, which would be
1. -/
theorem C9_counterexample :
    (hfPollCore "org" 0 (some 1) [[⟨some 5, "", "", "", none⟩]]).1 = [] ∧
    (hfPollCore "org" 0 (some 1) [[⟨some 5, "", "", "", none⟩]]).2 = some 5 ∧
    ¬ ((hfPollCore "org" 0 (some 1) [[⟨some 5, "", "", "", none⟩]]).2 =
        some (((hfPollCore "org" 0 (some 1) [[⟨some 5, "", "", "", none⟩]]).1.filterMap
          (fun e => e.occurred_at)).foldl max 1)) := by
  refine ⟨rfl, rfl, by decide⟩

/-- **C9 (amended).** Polling with a cursor whose decoded watermark is `W`
never returns, as new, an event whose `occurred_at` (upstream
`lastModified`) is at or before `W`; the returned watermark is the maximum
of `W` and the parseable `lastModified` times beyond `W` of *all polled
items* — including items that yield no event, e.g. those with an empty
model id — and is therefore never less than `W`. -/
theorem C9_watermark_monotone (org : String) (now w : Time) (pages : List (List HFItem)) :
    (∀ e ∈ (hfPollCore org now (some w) pages).1, ∀ t, e.occurred_at = some t → w < t) ∧
    (hfPollCore org now (some w) pages).2 =
      some ((hfCandidateTimes (some w) pages).foldl max w) ∧
    w ≤ (hfCandidateTimes (some w) pages).foldl max w := by
  have hflat : pages.foldl
      (fun acc page => page.foldl (hfProcessItem org now (some w)) acc) (some w, []) =
      pages.flatten.foldl (hfProcessItem org now (some w)) (some w, []) :=
    (List.foldl_flatten (hfProcessItem org now (some w)) (some w, []) pages).symm
  have hcand : hfCandidateTimes (some w) pages = hfCandList w pages.flatten := rfl
  refine ⟨?_, ?_, le_foldl_max _ w⟩
  · intro e he t ht
    have : e ∈ (pages.flatten.foldl (hfProcessItem org now (some w)) (some w, [])).2 := by
      simpa only [hfPollCore, hflat] using he
    exact hfFold_events_gt org now w pages.flatten (some w, [])
      (by intro e h; exact absurd h (List.not_mem_nil e)) e this t ht
  · rw [hcand]
    simpa only [hfPollCore, hflat] using hfFold_watermark org now w pages.flatten w []

/-- **C9, witness.** A concrete item beyond the watermark: its event is
returned with `occurred_at` strictly beyond `W`, and the new watermark is
the fold of the candidates. -/
theorem C9_witness :
    (hfPollCore "org" 0 (some (1 : Time)) [[⟨some 5, "m1", "sha1", "tag", none⟩]]).2 =
      some ((hfCandidateTimes (some 1) [[⟨some 5, "m1", "sha1", "tag", none⟩]]).foldl max 1) ∧
    (1 : Time) < 5 := by
  have h := C9_watermark_monotone "org" 0 1 [[⟨some 5, "m1", "sha1", "tag", none⟩]]
  refine ⟨h.2.1, ?_⟩
  refine h.1 (⟨"huggingface", "org_model", "org", "model_updated", "sha1", "m1", "tag",
    "https://huggingface.co/" ++ "m1", some 5, 0, none⟩ : TrackerEvent) ?_ 5 rfl
  show _ ∈ (hfPollCore "org" 0 (some 1) [[⟨some 5, "m1", "sha1", "tag", none⟩]]).1
  exact List.mem_singleton.mpr rfl

/-! ## C2 -/

theorem expectLit_append (lit r : List Char) : expectLit lit (lit ++ r) = some r := by
  induction lit with
  | nil => rfl
  | cons c rest ih => simp [expectLit, ih]

/-- The decoder inverts the escape encoding: decoding the escaped body
followed by a closing quote recovers the original characters and the
remaining input. -/
theorem parseBody_round (l : List Char) (r : List Char) :
    parseBody (l.flatMap escapeChar ++ '"' :: r) = some (l, r) := by
  induction l with
  | nil =>
    rw [parseBody.eq_def]
    simp
  | cons c l ih =>
    rw [List.flatMap_cons, List.append_assoc]
    by_cases h1 : c = '"'
    · subst h1; rw [parseBody.eq_def]; simp [escapeChar, ih]
    · by_cases h2 : c = '\\'
      · subst h2; rw [parseBody.eq_def]; simp [escapeChar, ih]
      · by_cases h3 : c = Char.ofNat 8
        · subst h3; rw [parseBody.eq_def]; simp [escapeChar, ih]
        · by_cases h4 : c = Char.ofNat 9
          · subst h4; rw [parseBody.eq_def]; simp [escapeChar, ih]
          · by_cases h5 : c = Char.ofNat 10
            · subst h5; rw [parseBody.eq_def]; simp [escapeChar, ih]
            · by_cases h6 : c = Char.ofNat 12
              · subst h6; rw [parseBody.eq_def]; simp [escapeChar, ih]
              · by_cases h7 : c = Char.ofNat 13
                · subst h7; rw [parseBody.eq_def]; simp [escapeChar, ih]
                · by_cases h8 : c.toNat < 0x20
                  · have hdec : ∀ m : Nat, m < 32 →
                        hexVal (Sha256.hexChar (m / 16)) * 16 +
                          hexVal (Sha256.hexChar (m % 16)) = m := by decide
                    rw [show escapeChar c =
                        ['\\', 'u', '0', '0', Sha256.hexChar (c.toNat / 16),
                         Sha256.hexChar (c.toNat % 16)] from by
                      simp [escapeChar, h1, h2, h3, h4, h5, h6, h7, h8]]
                    rw [parseBody.eq_def]
                    simp [ih, hdec c.toNat h8, Char.ofNat_toNat]
                  · rw [show escapeChar c = [c] from by
                      simp [escapeChar, h1, h2, h3, h4, h5, h6, h7, h8]]
                    rw [parseBody.eq_def]
                    simp [h1, h2, ih]

theorem parseJsonStr_round (s : String) (r : List Char) :
    parseJsonStr (encodeJsonString s ++ r) = some (s.data, r) := by
  have h : encodeJsonString s ++ r = '"' :: (s.data.flatMap escapeChar ++ '"' :: r) := by
    simp [encodeJsonString]
  rw [h]
  simp only [parseJsonStr, if_pos rfl]
  exact parseBody_round s.data r

/-- The decoder is a left inverse of the payload serialization. -/
theorem parseIdPayload_round (source resource_type resource_id event_type event_id : String) :
    parseIdPayload (stablePayloadChars source resource_type resource_id event_type event_id) =
      some (event_id.data, event_type.data, resource_id.data, resource_type.data,
        source.data) := by
  unfold stablePayloadChars parseIdPayload
  simp only [List.append_assoc]
  simp only [expectLit_append, parseJsonStr_round, Option.some_bind]
  simp

theorem length_flatMap_byteHex (l : List Nat) :
    (l.flatMap Sha256.byteHex).length = 2 * l.length := by
  induction l with
  | nil => rfl
  | cons b rest ih =>
    rw [List.flatMap_cons, List.length_append, ih]
    simp [Sha256.byteHex]
    omega

theorem sha256Bytes_length (msg : List Nat) : (Sha256.sha256Bytes msg).length = 32 := by
  simp [Sha256.sha256Bytes, Sha256.digestBytes, Sha256.bytesOfWord]

/-- Every fingerprint is a 64-character hex string. -/
theorem fingerprint_data_length (e : TrackerEvent) : e.fingerprint.data.length = 64 := by
  show ((Sha256.sha256Bytes (utf8 (stablePayload e))).flatMap Sha256.byteHex).length = 64
  rw [length_flatMap_byteHex, sha256Bytes_length]

theorem char_toNat_lt (c : Char) : c.toNat < UInt32.size :=
  UInt32.toNat_lt_size c.val

/-- **C2, counterexample.** The claim's second half — distinct identity
tuples always give distinct digests — is false: the fingerprint is a
64-character string drawn from a finite alphabet while identity tuples are
unbounded, so by pigeonhole two events with different `event_id`s share a
fingerprint (SHA-256 cannot be injective). -/
theorem C2_counterexample :
    ¬ ∀ e1 e2 : TrackerEvent, idTuple e1 ≠ idTuple e2 →
        e1.fingerprint ≠ e2.fingerprint := by
  intro H
  obtain ⟨m, k, hmk, hF⟩ := Finite.exists_ne_map_eq_of_infinite
    (fun (j : Nat) => fun (i : Fin 64) =>
      (⟨((repEvent j).fingerprint.data.getD i 'a').toNat, char_toNat_lt _⟩ : Fin UInt32.size))
  have hchars : ∀ i : Fin 64, (repEvent m).fingerprint.data.getD i 'a' =
      (repEvent k).fingerprint.data.getD i 'a' := by
    intro i
    have h1 := congrFun hF i
    have h2 : ((repEvent m).fingerprint.data.getD i 'a').toNat =
        ((repEvent k).fingerprint.data.getD i 'a').toNat := congrArg Fin.val h1
    have h3 := congrArg Char.ofNat h2
    rwa [Char.ofNat_toNat, Char.ofNat_toNat] at h3
  have hdata : (repEvent m).fingerprint.data = (repEvent k).fingerprint.data := by
    apply List.ext_getElem
    · rw [fingerprint_data_length, fingerprint_data_length]
    · intro i hi1 hi2
      have hi : i < 64 := by rwa [fingerprint_data_length] at hi1
      have h := hchars ⟨i, hi⟩
      rwa [List.getD_eq_getElem _ _ hi1, List.getD_eq_getElem _ _ hi2] at h
  have htuple : idTuple (repEvent m) ≠ idTuple (repEvent k) := by
    intro hEq
    apply hmk
    have h5 : (repEvent m).event_id = (repEvent k).event_id :=
      congrArg (fun t => t.2.2.2.2) hEq
    have h6 : List.replicate m (Char.ofNat 97) = List.replicate k (Char.ofNat 97) :=
      congrArg String.data h5
    have h7 := congrArg List.length h6
    simpa using h7
  exact H _ _ htuple (String.ext hdata)

/-- **C2 (amended).** Events sharing the identity tuple — whatever their
`title`, `summary`, `url`, `occurred_at`, `observed_at` or `raw` — have
equal fingerprints; the deterministic, stably-ordered serialization of the
identity tuple is injective, so events differing in any identity component
have distinct serialized payloads, and the fingerprint is exactly the
SHA-256 hexdigest of that payload (hence their digests differ unless
SHA-256 itself collides on the two payloads; unconditional digest
distinctness is impossible for a fixed-length digest). -/
theorem C2_fingerprint_identity (e1 e2 : TrackerEvent) :
    (idTuple e1 = idTuple e2 → e1.fingerprint = e2.fingerprint) ∧
    (stablePayload e1 = stablePayload e2 → idTuple e1 = idTuple e2) ∧
    e1.fingerprint = Sha256.hexdigest (utf8 (stablePayload e1)) := by
  refine ⟨?_, ?_, rfl⟩
  · intro h
    have h1 : e1.source = e2.source := congrArg (fun t => t.1) h
    have h2 : e1.resource_type = e2.resource_type := congrArg (fun t => t.2.1) h
    have h3 : e1.resource_id = e2.resource_id := congrArg (fun t => t.2.2.1) h
    have h4 : e1.event_type = e2.event_type := congrArg (fun t => t.2.2.2.1) h
    have h5 : e1.event_id = e2.event_id := congrArg (fun t => t.2.2.2.2) h
    unfold TrackerEvent.fingerprint stablePayload
    rw [h1, h2, h3, h4, h5]
  · intro h
    have hchars : stablePayloadChars e1.source e1.resource_type e1.resource_id
        e1.event_type e1.event_id =
        stablePayloadChars e2.source e2.resource_type e2.resource_id
        e2.event_type e2.event_id := congrArg String.data h
    have hp1 := parseIdPayload_round e1.source e1.resource_type e1.resource_id
      e1.event_type e1.event_id
    have hp2 := parseIdPayload_round e2.source e2.resource_type e2.resource_id
      e2.event_type e2.event_id
    rw [hchars] at hp1
    have htup := Option.some.inj (hp1.symm.trans hp2)
    have hei : e1.event_id = e2.event_id :=
      String.ext (congrArg (fun t => t.1) htup)
    have het : e1.event_type = e2.event_type :=
      String.ext (congrArg (fun t => t.2.1) htup)
    have hri : e1.resource_id = e2.resource_id :=
      String.ext (congrArg (fun t => t.2.2.1) htup)
    have hrt : e1.resource_type = e2.resource_type :=
      String.ext (congrArg (fun t => t.2.2.2.1) htup)
    have hsrc : e1.source = e2.source :=
      String.ext (congrArg (fun t => t.2.2.2.2) htup)
    unfold idTuple
    rw [hei, het, hri, hrt, hsrc]

/-- **C2, witness.** Two events differing only in presentation fields share
the fingerprint; an event with a different `event_id` has a different
serialized payload. -/
theorem C2_witness :
    idTuple exEvent = idTuple exEventRetitled ∧
    exEvent.fingerprint = exEventRetitled.fingerprint ∧
    stablePayload exEvent = stablePayload exEventRetitled ∧
    idTuple exEvent ≠ idTuple exEventOther ∧
    stablePayload exEvent ≠ stablePayload exEventOther := by
  exact ⟨rfl, (C2_fingerprint_identity exEvent exEventRetitled).1 rfl, rfl,
    by decide, by decide⟩

end MRT
